import Mathlib

/-!
Verification development for the `lucas` multi-agent orchestration system.

Shallow embedding of:
* `src/lucas/core/state.py`      — conversation state and hop counter
* `src/lucas/core/orchestrator.py` — routing graph, coordinator, entry points
* `src/lucas/plugins/base.py`    — plugin agent node state updates
* `src/lucas/plugins/manager.py` — plugin loading, health checks
* `src/lucas/config/settings.py` — configuration surface
* `src/lucas/llm/factory.py`     — model factory and cache
* `src/lucas/llm/providers.py`   — model configuration record

Model calls are abstracted as an environment (`Env`) supplying the message
returned by the k-th model invocation of a turn; everything else is a direct
translation of the Python control flow.
-/

namespace Lucas

/-! ## Conversation state (`src/lucas/core/state.py`) -/

/-- Message roles, mirroring the LangChain message classes used by the code
(`HumanMessage`, `AIMessage`, `SystemMessage`, `ToolMessage`). -/
inductive Role
  | user
  | assistant
  | system
  | tool
deriving DecidableEq, Repr

/-- A conversation entry.  `toolCalls` holds the names of the pending tool
calls attached to the message (`msg.tool_calls` in the source); the empty
list models the falsy `None`/`[]` cases. -/
structure Message where
  role : Role
  content : String
  toolCalls : List String
deriving DecidableEq, Repr

/-- `MAX_HOPS: int = 10` in `src/lucas/core/state.py`. -/
def MAX_HOPS : Nat := 10

/-- The `plugin_context` side channel written by plugin agent steps
(`plugin_context["last_plugin"]`, `plugin_context["routing_history"]`).
The dict defaults (missing keys) are modelled by the field defaults. -/
structure PluginContext where
  last_plugin : Option String := none
  routing_history : List String := []
deriving DecidableEq, Repr

/-- `AgentState` from `src/lucas/core/state.py`.  The TypedDict is
`total=False` and every read in the source uses `.get` with a default;
those defaults are the field defaults here. -/
structure AgentState where
  messages : List Message := []
  hops : Nat := 0
  current_agent : Option String := none
  agents_used : List String := []
  plugin_context : PluginContext := {}
deriving DecidableEq, Repr

/-- `_inc_hops` from `src/lucas/core/state.py`: `state.get("hops", 0) + 1`. -/
def _inc_hops (s : AgentState) : Nat := s.hops + 1

/-! ## Configuration surface (`src/lucas/config/settings.py`) -/

/-- The fields of `Settings` consumed by the orchestration engine and the
model access layer.  `max_hops` is declared with
`Field(default=10, ge=1, le=50)`. -/
structure Settings where
  default_llm_provider : String := "openai"
  openai_api_key : Option String := none
  anthropic_api_key : Option String := none
  google_api_key : Option String := none
  max_hops : Nat := 10
deriving DecidableEq, Repr

/-- The pydantic bounds `ge=1, le=50` on `Settings.max_hops`. -/
def Settings.valid (st : Settings) : Prop :=
  1 ≤ st.max_hops ∧ st.max_hops ≤ 50

/-- `Settings.get_api_key_for_provider`: provider aliases `claude → anthropic`
and `gemini → google`; unknown providers resolve to `None`. -/
def Settings.get_api_key_for_provider (st : Settings) (provider : String) : Option String :=
  if provider = "openai" then st.openai_api_key
  else if provider = "anthropic" ∨ provider = "claude" then st.anthropic_api_key
  else if provider = "google" ∨ provider = "gemini" then st.google_api_key
  else none

/-! ## Orchestrator graph (`src/lucas/core/orchestrator.py`)

The compiled LangGraph is represented by its node set and the transition
logic of `_build_graph`: conditional edges out of `coordinator`,
`control_tools` and each `{plugin}_agent`, the direct edges
`{plugin}_tools → {plugin}_agent` and `finalizer → END`. -/

/-- Graph nodes.  `terminal` is LangGraph's `END`. -/
inductive Node
  | coordinator
  | controlTools
  | pluginAgent (name : String)
  | pluginTools (name : String)
  | finalizer
  | terminal
deriving DecidableEq, Repr

/-- The orchestrator as constructed by `MultiAgentOrchestrator.__init__`:
it stores the settings object and the loaded plugin names
(`plugin_manager.plugin_bundles.keys()`). -/
structure Orchestrator where
  plugins : List String
  settings : Settings

/-- Environment of a turn: `model k` is the message produced by the k-th
LLM invocation of the turn (coordinator, plugin agent or finalizer call),
and `toolRun t` is the output of executing a plugin tool call named `t`. -/
structure Env where
  model : Nat → Message
  toolRun : String → String

/-- The system notice injected by `_coordinator_node` when
`state.get("hops", 0) >= MAX_HOPS`:
`f"Max hops ({MAX_HOPS}) reached. Finalize now."`. -/
def maxHopsNotice : Message :=
  ⟨Role.system, "Max hops (" ++ toString MAX_HOPS ++ ") reached. Finalize now.", []⟩

/-- `MultiAgentOrchestrator._coordinator_node`.  Returns the merged state
(LangGraph appends `messages` via `add_messages` and replaces `hops`)
together with the next free model-invocation index: the guard branch skips
the model call, the other branch consumes one invocation. -/
def coordinator_node (env : Env) (k : Nat) (s : AgentState) : AgentState × Nat :=
  if MAX_HOPS ≤ s.hops then
    ({ s with messages := s.messages ++ [maxHopsNotice], hops := _inc_hops s }, k)
  else
    let response := env.model k
    ({ s with messages := s.messages ++ [response], hops := _inc_hops s }, k + 1)

/-- The conditional edge out of `coordinator` in `_build_graph`:
`"continue" if getattr(s["messages"][-1], "tool_calls", None) else "end"`,
with mapping `{"continue": "control_tools", "end": END}`. -/
def routeAfterCoordinator (s : AgentState) : Node :=
  match s.messages.getLast? with
  | some m => if m.toolCalls ≠ [] then Node.controlTools else Node.terminal
  | none => Node.terminal

/-- Result string of executing one coordinator routing tool
(`PluginManager.get_coordinator_tools`): the synthesized `goto_<name>`
function returns the bare plugin name, `finalize` returns `"final"`. -/
def coordinatorToolResult (plugins : List String) (toolName : String) : String :=
  if toolName = "finalize" then "final"
  else
    match plugins.find? (fun p => toolName = "goto_" ++ p) with
    | some p => p
    | none => "Error: tool not found"

/-- The `control_tools` node (`ToolNode(tools=get_coordinator_tools())`):
executes each pending tool call of the last message and appends one tool
message per call carrying the tool's return value as content. -/
def control_tools_node (plugins : List String) (s : AgentState) : AgentState :=
  match s.messages.getLast? with
  | some m =>
      { s with messages :=
          s.messages ++ m.toolCalls.map (fun t => ⟨Role.tool, coordinatorToolResult plugins t, []⟩) }
  | none => s

/-- Character-level prefix test, `charsPre pre cs = true` iff `pre` is a
prefix of `cs`. -/
def charsPre : List Char → List Char → Bool
  | [], _ => true
  | _ :: _, [] => false
  | p :: ps, c :: cs => (p = c) && charsPre ps cs

/-- Python's `str.startswith(pre)` on the character sequence (Lean's own
byte-based `String.startsWith` is not kernel-executable). -/
def pyStartsWith (s pre : String) : Bool := charsPre pre.data s.data

/-- Python's slicing `s[n:]` on the character sequence. -/
def pyDrop (s : String) (n : Nat) : String := ⟨s.data.drop n⟩

/-- `MultiAgentOrchestrator._route_after_control_tools`, the pure routing
function: reads the last message's content and maps it to a route label
(`"end"` or `"<plugin>_agent"`).  Mirrors the source branch for branch,
including the truthiness test `tool_result and tool_result.startswith(...)`. -/
def route_after_control_tools (plugins : List String) (s : AgentState) : String :=
  match s.messages.getLast? with
  | none => "end"
  | some m =>
      let tool_result := m.content
      if tool_result = "final" then "end"
      else if plugins.contains tool_result then tool_result ++ "_agent"
      else if !(tool_result == "") && pyStartsWith tool_result "goto_" then
        let plugin_name := pyDrop tool_result 5
        if plugins.contains plugin_name then plugin_name ++ "_agent" else "end"
      else "end"

/-- The mapping passed to `add_conditional_edges("control_tools", ...)`:
`route_mapping = {"end": "finalizer"} ∪ {f"{p}_agent": f"{p}_agent"}` for
every available plugin.  A label outside the mapping would be a LangGraph
error; it is mapped to `terminal` here and is unreachable for labels
produced by `route_after_control_tools`. -/
def applyControlMapping (plugins : List String) (label : String) : Node :=
  if label = "end" then Node.finalizer
  else
    match plugins.find? (fun p => label = p ++ "_agent") with
    | some p => Node.pluginAgent p
    | none => Node.terminal

/-- The state update performed by the plugin agent node
(`BasePluginAgent.create_agent_node` in `src/lucas/plugins/base.py`),
given the bound model's response: appends the response, increments `hops`,
sets `current_agent`, appends the plugin name to `agents_used` if absent,
and appends to `plugin_context.routing_history` unconditionally. -/
def agent_node_update (name : String) (response : Message) (s : AgentState) : AgentState :=
  let agents_used :=
    if s.agents_used.contains name then s.agents_used else s.agents_used ++ [name]
  { s with
    messages := s.messages ++ [response]
    hops := s.hops + 1
    current_agent := some name
    agents_used := agents_used
    plugin_context :=
      { last_plugin := some name
        routing_history := s.plugin_context.routing_history ++ [name] } }

/-- `BasePluginAgent.should_continue`: `"continue"` when the last message
carries tool calls, else `"back"`. -/
def should_continue (s : AgentState) : String :=
  match s.messages.getLast? with
  | none => "back"
  | some m => if m.toolCalls ≠ [] then "continue" else "back"

/-- The `{plugin}_tools` node (`ToolNode(tools)` of the bundle): executes
the plugin's own tools for each pending call and appends the results. -/
def plugin_tools_node (env : Env) (s : AgentState) : AgentState :=
  match s.messages.getLast? with
  | some m =>
      { s with messages := s.messages ++ m.toolCalls.map (fun t => ⟨Role.tool, env.toolRun t, []⟩) }
  | none => s

/-- `MultiAgentOrchestrator._finalizer_node`: one more model invocation over
the accumulated history; returns the response and the unchanged hop count. -/
def finalizer_node (env : Env) (k : Nat) (s : AgentState) : AgentState × Nat :=
  let response := env.model k
  ({ s with messages := s.messages ++ [response], hops := s.hops }, k + 1)

/-- Execution point of a turn: current node, state, number of model
invocations consumed so far (`calls`, the index into `Env.model`) and the
number of those that were coordinator model invocations (`coordCalls`). -/
structure Exec where
  node : Node
  state : AgentState
  calls : Nat
  coordCalls : Nat
deriving Repr

/-- One LangGraph super-step of the compiled graph: runs the current node
and follows the edge selected by `_build_graph`'s edge definitions. -/
def stepExec (o : Orchestrator) (env : Env) (e : Exec) : Exec :=
  match e.node with
  | Node.coordinator =>
      let r := coordinator_node env e.calls e.state
      { node := routeAfterCoordinator r.1
        state := r.1
        calls := r.2
        coordCalls := if MAX_HOPS ≤ e.state.hops then e.coordCalls else e.coordCalls + 1 }
  | Node.controlTools =>
      let s' := control_tools_node o.plugins e.state
      { e with
        node := applyControlMapping o.plugins (route_after_control_tools o.plugins s')
        state := s' }
  | Node.pluginAgent p =>
      let s' := agent_node_update p (env.model e.calls) e.state
      { node := if should_continue s' = "continue" then Node.pluginTools p else Node.coordinator
        state := s'
        calls := e.calls + 1
        coordCalls := e.coordCalls }
  | Node.pluginTools p =>
      { e with node := Node.pluginAgent p, state := plugin_tools_node env e.state }
  | Node.finalizer =>
      let r := finalizer_node env e.calls e.state
      { node := Node.terminal, state := r.1, calls := r.2, coordCalls := e.coordCalls }
  | Node.terminal => e

/-- Drive the graph for at most `fuel` super-steps; `some` exactly when the
terminal node `END` is reached. -/
def runExec (o : Orchestrator) (env : Env) : Nat → Exec → Option Exec
  | 0, e => if e.node = Node.terminal then some e else none
  | fuel + 1, e =>
      if e.node = Node.terminal then some e
      else runExec o env fuel (stepExec o env e)

/-- One full turn: `self.graph.invoke(state)` — entry point `coordinator`,
run to `END`. -/
def runTurn (o : Orchestrator) (env : Env) (fuel : Nat) (s : AgentState) : Option AgentState :=
  (runExec o env fuel { node := Node.coordinator, state := s, calls := 0, coordCalls := 0 }).map
    Exec.state

/-! ## Entry points (`MultiAgentOrchestrator.invoke` / `ainvoke`)

The outcome of `self.graph.invoke(input_data)` (which can raise from model
calls or graph execution) is abstracted as an `Except String AgentState`;
the entry points wrap it in the source's `try/except`.  The error-branch
dicts carry only `messages`/`hops` (plus `error` for `ainvoke`); the absent
keys are the field defaults of `AgentState`. -/

/-- The generic apology content of `invoke`'s except-branch. -/
def apology : String := "I encountered an error processing your request."

/-- `MultiAgentOrchestrator.invoke`: returns the graph result, or on any
exception a single apology `AIMessage` with `input_data.get("hops", 0) + 1`. -/
def invokeEntry (graphResult : Except String AgentState) (inp : AgentState) : AgentState :=
  match graphResult with
  | Except.ok r => r
  | Except.error _ =>
      { messages := [⟨Role.assistant, apology, []⟩], hops := inp.hops + 1 }

/-- `MultiAgentOrchestrator.ainvoke`: like `invoke`, but the except-branch
message content embeds `str(e)` and the returned dict carries an
`error` key (modelled as the second component). -/
def ainvokeEntry (graphResult : Except String AgentState) (inp : AgentState) :
    AgentState × Option String :=
  match graphResult with
  | Except.ok r => (r, none)
  | Except.error e =>
      ({ messages := [⟨Role.assistant, apology ++ " Error: " ++ e, []⟩], hops := inp.hops + 1 },
       some e)

/-! ## Model access layer (`src/lucas/llm/providers.py`, `src/lucas/llm/factory.py`) -/

/-- `ModelConfig` from `src/lucas/llm/providers.py`.  The float temperature
is modelled as a rational; `toString` of the rational stands for the
f-string rendering of the float in the cache key. -/
structure ModelConfig where
  provider : String
  model_name : String
  temperature : ℚ := 4/5
  max_tokens : Nat := 1024
  api_key : Option String := none
deriving DecidableEq, Repr

/-- A constructed chat-model handle.  The fields record the constructor
arguments passed by the provider's `create_model`
(`ChatOpenAI(model=..., temperature=..., max_tokens=..., api_key=...)`);
`uid` is the construction event's identity, so two calls return "the very
same handle" exactly when the returned `uid`s coincide. -/
structure ModelHandle where
  provider_kind : String
  model_name : String
  temperature : ℚ
  max_tokens : Nat
  api_key : Option String
  uid : Nat
deriving DecidableEq, Repr

/-- The provider classes pre-registered by `ProviderRegistry.__init__`:
`"anthropic"`/`"claude"` share `AnthropicProvider`, `"google"`/`"gemini"`
share `GoogleGenAIProvider`. -/
def registeredProviders : List String :=
  ["openai", "anthropic", "claude", "google", "gemini"]

/-- The provider class a registry key resolves to (used to record which
concrete model class built a handle). -/
def providerKind (provider : String) : String :=
  if provider = "anthropic" ∨ provider = "claude" then "anthropic"
  else if provider = "google" ∨ provider = "gemini" then "google"
  else provider

/-- `ModelCacheManager.get_cache_key`:
`f"{config.provider}:{config.model_name}:{config.temperature}"`. -/
def get_cache_key (c : ModelConfig) : String :=
  c.provider ++ ":" ++ c.model_name ++ ":" ++ toString c.temperature

/-- State of an `LLMModelFactory`: its settings, the cache manager's dict,
and a counter supplying fresh handle identities. -/
structure FactoryState where
  settings : Settings := {}
  cache : List (String × ModelHandle) := []
  nextUid : Nat := 0
deriving DecidableEq, Repr

/-- `LLMModelFactory._ensure_api_key`: when `config.api_key` is falsy,
resolve it from settings; raise `ValueError` when still unresolved. -/
def ensure_api_key (st : Settings) (c : ModelConfig) : Except String ModelConfig :=
  match c.api_key with
  | some _ => Except.ok c
  | none =>
      match st.get_api_key_for_provider c.provider with
      | some k => Except.ok { c with api_key := some k }
      | none => Except.error ("No API key found for provider: " ++ c.provider)

/-- `LLMModelFactory.create_base_model`: cache lookup first, then provider
lookup, then key resolution, then construction and cache insertion.
Errors are the `ValueError`s raised by the source. -/
def create_base_model (fs : FactoryState) (c : ModelConfig) :
    Except String (ModelHandle × FactoryState) :=
  match fs.cache.lookup (get_cache_key c) with
  | some m => Except.ok (m, fs)
  | none =>
      if registeredProviders.contains c.provider then
        match ensure_api_key fs.settings c with
        | Except.error e => Except.error e
        | Except.ok c' =>
            Except.ok
              ({ provider_kind := providerKind c.provider
                 model_name := c'.model_name
                 temperature := c'.temperature
                 max_tokens := c'.max_tokens
                 api_key := c'.api_key
                 uid := fs.nextUid },
               { fs with
                 cache := fs.cache ++
                   [(get_cache_key c,
                     { provider_kind := providerKind c.provider
                       model_name := c'.model_name
                       temperature := c'.temperature
                       max_tokens := c'.max_tokens
                       api_key := c'.api_key
                       uid := fs.nextUid })]
                 nextUid := fs.nextUid + 1 })
      else Except.error ("Unknown provider: " ++ c.provider)

/-! ## Plugin registry (`src/lucas/plugins/base.py`, `src/lucas/plugins/manager.py`) -/

/-- The `PluginMetadata` fields the registry reads.  The
`llm_requirements` dict is flattened into the four keys
`_create_model_config` looks up. -/
structure PluginMetadata where
  name : String
  version : String
  description : String
  capabilities : List String := []
  llm_provider : Option String := none
  llm_model : Option String := none
  llm_temperature : Option ℚ := none
  llm_max_tokens : Option Nat := none
  agent_type : String := "specialized"
deriving DecidableEq, Repr

/-- `PluginManager._create_model_config`: each requirement independently
defaulted (`provider → "openai"`, `model → "gpt-4o"`, `temperature → 0.0`,
`max_tokens → 1000`). -/
def create_model_config (md : PluginMetadata) : ModelConfig :=
  { provider := md.llm_provider.getD "openai"
    model_name := md.llm_model.getD "gpt-4o"
    temperature := md.llm_temperature.getD 0
    max_tokens := md.llm_max_tokens.getD 1000
    api_key := none }

/-- A registered `PluginBundle`.  The `Option` fields model Python's
`is not None` tests in `perform_health_checks`; `tools` holds the tool
names. -/
structure PluginBundle where
  metadata : Option PluginMetadata
  agent : Option Unit
  bound_model : Option ModelHandle
  tools : List String
deriving DecidableEq, Repr

/-- Python dict assignment `d[k] = v`: replace in place if the key exists,
else append (insertion order preserved). -/
def dictInsert {α : Type} (l : List (String × α)) (k : String) (v : α) :
    List (String × α) :=
  if (l.lookup k).isSome then l.map (fun kv => if kv.1 = k then (k, v) else kv)
  else l ++ [(k, v)]

/-- State of a `PluginManager`: the bundle and metadata dicts, the
healthy/failed name sets, and the shared `LLMModelFactory`. -/
structure ManagerState where
  bundles : List (String × PluginBundle) := []
  metadataMap : List (String × PluginMetadata) := []
  healthy : Finset String := ∅
  failed : Finset String := ∅
  factory : FactoryState := {}

/-- One discovered plugin directory, as the outside world presents it to
`load_plugin_bundle`.  Each fallible step of the load is an `Except` whose
`error` case is an exception escaping that step:
* `validationStep` — `validator.validate_plugin_directory` (raise, or the
  returned error list);
* `moduleExec` — `spec.loader.exec_module` inside `_load_plugin_module`
  (its exceptions are caught there and converted to `None`);
* `hasRequiredFns` — the `hasattr(module, "get_metadata"/"create_agent")` test;
* `metadataStep` — `plugin_module.get_metadata()`;
* `agentStep` — `plugin_module.create_agent()`;
* `toolsStep` — `agent.get_tools()`;
* `bindStep` — `agent.bind_model(base_model)`;
* `initStep` — the agent's initialization hook. -/
structure PluginSource where
  dirName : String
  validationStep : Except String (List String)
  moduleExec : Except String Unit
  hasRequiredFns : Bool
  metadataStep : Except String PluginMetadata
  agentStep : Except String Unit
  toolsStep : Except String (List String)
  bindStep : Except String Unit
  initStep : Except String Unit

/-- `PluginManager._load_plugin_module`: returns `None` (here `none`) both
when executing the module raises (the exception is caught and logged
inside this helper) and when the required accessors are missing. -/
def load_plugin_module (src : PluginSource) : Option Unit :=
  match src.moduleExec with
  | Except.error _ => none
  | Except.ok _ => if src.hasRequiredFns then some () else none

/-- The `try`-block of `PluginManager.load_plugin_bundle`.
`ok none` is an early `return False` inside the `try` (validation errors,
module failed to load); `ok (some ms')` is a successful registration;
`error (e, msAt)` is an exception escaping the block, carrying the manager
state at the raise point (the factory cache mutation performed by
`create_base_model` is not rolled back by the exception). -/
def load_bundle_body (ms : ManagerState) (src : PluginSource) :
    Except (String × ManagerState) (Option ManagerState) :=
  match src.validationStep with
  | Except.error e => Except.error (e, ms)
  | Except.ok validation_errors =>
      if validation_errors ≠ [] then Except.ok none
      else
        match load_plugin_module src with
        | none => Except.ok none
        | some _ =>
            match src.metadataStep with
            | Except.error e => Except.error (e, ms)
            | Except.ok md =>
                match src.agentStep with
                | Except.error e => Except.error (e, ms)
                | Except.ok _ =>
                    match create_base_model ms.factory (create_model_config md) with
                    | Except.error e => Except.error (e, ms)
                    | Except.ok (base_model, fac') =>
                        let ms₁ := { ms with factory := fac' }
                        match src.toolsStep with
                        | Except.error e => Except.error (e, ms₁)
                        | Except.ok tools =>
                            match src.bindStep with
                            | Except.error e => Except.error (e, ms₁)
                            | Except.ok _ =>
                                match src.initStep with
                                | Except.error e => Except.error (e, ms₁)
                                | Except.ok _ =>
                                    let bundle : PluginBundle :=
                                      { metadata := some md
                                        agent := some ()
                                        bound_model := some base_model
                                        tools := tools }
                                    Except.ok (some
                                      { ms₁ with
                                        bundles := dictInsert ms₁.bundles md.name bundle
                                        metadataMap := dictInsert ms₁.metadataMap md.name md
                                        healthy := insert md.name ms₁.healthy })

/-- `PluginManager.load_plugin_bundle`: the `try` body plus the
`except Exception` handler, which adds the *directory* name to
`failed_plugins` and returns `False`.  The early-`False` paths do not
touch `failed_plugins`. -/
def load_plugin_bundle (ms : ManagerState) (src : PluginSource) : Bool × ManagerState :=
  match load_bundle_body ms src with
  | Except.ok none => (false, ms)
  | Except.ok (some ms') => (true, ms')
  | Except.error (_, msAt) => (false, { msAt with failed := insert src.dirName msAt.failed })

/-- `PluginManager.load_all_plugin_bundles`: loads every discovered
plugin in order; individual outcomes only feed the logged counters. -/
def load_all_plugin_bundles (ms : ManagerState) (srcs : List PluginSource) : ManagerState :=
  srcs.foldl (fun m src => (load_plugin_bundle m src).2) ms

/-- The health predicate of `perform_health_checks`:
`agent is not None and bound_model is not None and len(tools) > 0 and
metadata is not None`. -/
def bundle_health (b : PluginBundle) : Bool :=
  b.agent.isSome && b.bound_model.isSome && decide (0 < b.tools.length) && b.metadata.isSome

/-- The loop body of `perform_health_checks` on the accumulator
(results list, healthy set, failed set). -/
def health_check_step (acc : List (String × Bool) × Finset String × Finset String)
    (nb : String × PluginBundle) : List (String × Bool) × Finset String × Finset String :=
  let is_healthy := bundle_health nb.2
  if is_healthy then
    (acc.1 ++ [(nb.1, is_healthy)], (insert nb.1 acc.2.1, acc.2.2.erase nb.1))
  else
    (acc.1 ++ [(nb.1, is_healthy)], (acc.2.1.erase nb.1, insert nb.1 acc.2.2))

/-- `PluginManager.perform_health_checks`: re-classifies every loaded
bundle, returning the per-plugin results dict and the updated manager
state.  The bundle dict itself is never modified. -/
def perform_health_checks (ms : ManagerState) :
    List (String × Bool) × ManagerState :=
  let r := ms.bundles.foldl health_check_step ([], ms.healthy, ms.failed)
  (r.1, { ms with healthy := r.2.1, failed := r.2.2 })

/-! ## Helper lemmas -/

/-- Right-cancellation for string append. -/
theorem string_append_cancel (a b c : String) (h : a ++ c = b ++ c) : a = b := by
  have hd : (a ++ c).data = (b ++ c).data := by rw [h]
  rw [String.data_append, String.data_append] at hd
  have h2 : a.data = b.data := List.append_left_injective c.data hd
  cases a; cases b; exact congrArg String.mk h2

/-- An `"<p>_agent"` route label is never the `"end"` label. -/
theorem agent_label_ne_end (a : String) : a ++ "_agent" ≠ "end" := by
  intro h
  have h1 : (a ++ "_agent").length = ("end" : String).length := by rw [h]
  rw [String.length_append] at h1
  have h2 : ("_agent" : String).length = 6 := by decide
  have h3 : ("end" : String).length = 3 := by decide
  omega

/-- Looking up an agent route label in the plugin list finds exactly the
plugin whose name built the label. -/
theorem find_agent_label {plugins : List String} {p : String}
    (hp : p ∈ plugins) :
    plugins.find? (fun q => p ++ "_agent" = q ++ "_agent") = some p := by
  induction plugins with
  | nil => cases hp
  | cons q t ih =>
      by_cases hq : q = p
      · subst hq; simp [List.find?]
      · have hdec : (decide (p ++ "_agent" = q ++ "_agent")) = false := by
          apply decide_eq_false
          intro hEq
          exact hq (string_append_cancel q p "_agent" hEq.symm)
        have hmem : p ∈ t := by
          cases hp with
          | head => exact absurd rfl hq
          | tail _ h => exact h
        simp only [List.find?, hdec]
        exact ih hmem

/-- Composite routing step out of `control_tools`: the label produced by
`_route_after_control_tools` interpreted through the `route_mapping` dict
built in `_build_graph`. -/
def routeDest (plugins : List String) (s : AgentState) : Node :=
  applyControlMapping plugins (route_after_control_tools plugins s)

/-- Every label produced by `_route_after_control_tools` is `"end"` or the
agent label of a loaded plugin. -/
theorem route_label_spec (plugins : List String) (s : AgentState) :
    route_after_control_tools plugins s = "end" ∨
      ∃ q ∈ plugins, route_after_control_tools plugins s = q ++ "_agent" := by
  unfold route_after_control_tools
  cases hm : s.messages.getLast? with
  | none => left; rfl
  | some m =>
      by_cases hfin : m.content = "final"
      · left; simp [hfin]
      · by_cases hmem : m.content ∈ plugins
        · right; exact ⟨m.content, hmem, by simp [hfin, hmem]⟩
        · by_cases hemp : m.content = ""
          · left; rw [hemp] at hmem; simp [hfin, hemp, hmem]
          · by_cases hsw : pyStartsWith m.content "goto_" = true
            · by_cases hdrop : pyDrop m.content 5 ∈ plugins
              · right
                exact ⟨pyDrop m.content 5, hdrop, by simp [hfin, hmem, hemp, hsw, hdrop]⟩
              · left; simp [hfin, hmem, hemp, hsw, hdrop]
            · rw [Bool.not_eq_true] at hsw
              left; simp [hfin, hmem, hemp, hsw]

/-- The `route_mapping` dict sends `"end"` to the finalizer node. -/
theorem applyControlMapping_end (plugins : List String) :
    applyControlMapping plugins "end" = Node.finalizer := by
  simp [applyControlMapping]

/-- The `route_mapping` dict sends a loaded plugin's agent label to that
plugin's agent node. -/
theorem applyControlMapping_agent {plugins : List String} {q : String}
    (hq : q ∈ plugins) :
    applyControlMapping plugins (q ++ "_agent") = Node.pluginAgent q := by
  unfold applyControlMapping
  rw [if_neg (agent_label_ne_end q), find_agent_label hq]

/-! ## Claim C3 — routing after the control-tools step -/

/-- C3: routing after the control-tools step is a pure function of the last
message's content and the loaded plugin set: `"final"` maps to the
finalizer; an exact loaded-plugin name, or `goto_<name>` for a loaded
plugin `<name>`, maps to that plugin's agent node; every other value
(unknown token, missing last message) maps to the finalizer, and the
router never produces anything but the finalizer or a loaded plugin's
agent node. -/
theorem claim_C3_route_token_mapping (plugins : List String) (s : AgentState) :
    (s.messages.getLast? = none → routeDest plugins s = Node.finalizer) ∧
    (∀ m, s.messages.getLast? = some m →
      (m.content = "final" → routeDest plugins s = Node.finalizer) ∧
      (m.content ≠ "final" → m.content ∈ plugins →
        routeDest plugins s = Node.pluginAgent m.content) ∧
      (m.content ≠ "final" → m.content ∉ plugins →
        pyStartsWith m.content "goto_" = true → pyDrop m.content 5 ∈ plugins →
        routeDest plugins s = Node.pluginAgent (pyDrop m.content 5)) ∧
      (m.content ≠ "final" → m.content ∉ plugins →
        (pyStartsWith m.content "goto_" = false ∨ pyDrop m.content 5 ∉ plugins) →
        routeDest plugins s = Node.finalizer)) ∧
    (routeDest plugins s = Node.finalizer ∨
      ∃ q ∈ plugins, routeDest plugins s = Node.pluginAgent q) := by
  refine ⟨?_, ?_, ?_⟩
  · intro h
    have hr : route_after_control_tools plugins s = "end" := by
      unfold route_after_control_tools; rw [h]
    unfold routeDest; rw [hr]; exact applyControlMapping_end plugins
  · intro m hm
    refine ⟨?_, ?_, ?_, ?_⟩
    · intro hfin
      have hr : route_after_control_tools plugins s = "end" := by
        unfold route_after_control_tools; rw [hm]; simp [hfin]
      unfold routeDest; rw [hr]; exact applyControlMapping_end plugins
    · intro hfin hmem
      have hr : route_after_control_tools plugins s = m.content ++ "_agent" := by
        unfold route_after_control_tools; rw [hm]; simp [hfin, hmem]
      unfold routeDest; rw [hr]; exact applyControlMapping_agent hmem
    · intro hfin hmem hsw hdrop
      have hemp : m.content ≠ "" := by
        intro he
        have hfalse : pyStartsWith "" "goto_" = false := by decide
        rw [he, hfalse] at hsw
        cases hsw
      have hr : route_after_control_tools plugins s = pyDrop m.content 5 ++ "_agent" := by
        unfold route_after_control_tools; rw [hm]; simp [hfin, hmem, hemp, hsw, hdrop]
      unfold routeDest; rw [hr]; exact applyControlMapping_agent hdrop
    · intro hfin hmem hbad
      have hr : route_after_control_tools plugins s = "end" := by
        unfold route_after_control_tools; rw [hm]
        rcases hbad with hsw | hdrop
        · simp [hfin, hmem, hsw]
        · by_cases hemp : m.content = ""
          · rw [hemp] at hmem; simp [hfin, hemp, hmem]
          · by_cases hsw : pyStartsWith m.content "goto_" = true
            · simp [hfin, hmem, hemp, hsw, hdrop]
            · rw [Bool.not_eq_true] at hsw
              simp [hfin, hmem, hsw]
      unfold routeDest; rw [hr]; exact applyControlMapping_end plugins
  · rcases route_label_spec plugins s with h | ⟨q, hq, h⟩
    · left; unfold routeDest; rw [h]; exact applyControlMapping_end plugins
    · right; exact ⟨q, hq, by unfold routeDest; rw [h]; exact applyControlMapping_agent hq⟩

/-- Witness for C3 at concrete inputs: with plugin set `["search"]`, the
token `goto_search` routes to the search agent and the token `bogus`
routes to the finalizer. -/
theorem claim_C3_route_token_mapping_witness :
    routeDest ["search"] { messages := [⟨Role.tool, "goto_search", []⟩] } =
      Node.pluginAgent "search" ∧
    routeDest ["search"] { messages := [⟨Role.tool, "bogus", []⟩] } = Node.finalizer := by
  constructor
  · have h :=
      ((claim_C3_route_token_mapping ["search"]
          { messages := [⟨Role.tool, "goto_search", []⟩] }).2.1
        ⟨Role.tool, "goto_search", []⟩ (by decide)).2.2.1
    have h2 := h (by decide) (by decide) (by decide) (by decide)
    have hd : pyDrop "goto_search" 5 = "search" := by decide
    rw [hd] at h2
    exact h2
  · exact
      ((claim_C3_route_token_mapping ["search"]
          { messages := [⟨Role.tool, "bogus", []⟩] }).2.1
        ⟨Role.tool, "bogus", []⟩ (by decide)).2.2.2
        (by decide) (by decide) (Or.inl (by decide))

/-! ## Hop-counter lemmas for the graph step function -/

/-- The `control_tools` node never changes the hop counter. -/
theorem control_tools_node_hops (plugins : List String) (s : AgentState) :
    (control_tools_node plugins s).hops = s.hops := by
  unfold control_tools_node
  cases s.messages.getLast? <;> rfl

/-- A plugin's tool node never changes the hop counter. -/
theorem plugin_tools_node_hops (env : Env) (s : AgentState) :
    (plugin_tools_node env s).hops = s.hops := by
  unfold plugin_tools_node
  cases s.messages.getLast? <;> rfl

/-- Both branches of the coordinator node return `hops + 1`
(`"hops": _inc_hops(state)` in each return). -/
theorem coordinator_node_hops (env : Env) (k : Nat) (s : AgentState) :
    (coordinator_node env k s).1.hops = s.hops + 1 := by
  unfold coordinator_node _inc_hops
  split <;> rfl

/-- A super-step starting at the coordinator node increments `hops` by
exactly 1. -/
theorem stepExec_coordinator_hops (o : Orchestrator) (env : Env) (s : AgentState) (k c : Nat) :
    (stepExec o env ⟨Node.coordinator, s, k, c⟩).state.hops = s.hops + 1 := by
  show (coordinator_node env k s).1.hops = s.hops + 1
  exact coordinator_node_hops env k s

/-- No super-step ever decreases the hop counter. -/
theorem stepExec_hops_mono (o : Orchestrator) (env : Env) (e : Exec) :
    e.state.hops ≤ (stepExec o env e).state.hops := by
  rcases e with ⟨node, s, k, c⟩
  cases node with
  | coordinator =>
      rw [stepExec_coordinator_hops]
      exact Nat.le_succ _
  | controlTools =>
      show s.hops ≤ (control_tools_node o.plugins s).hops
      rw [control_tools_node_hops]
  | pluginAgent p =>
      show s.hops ≤ (agent_node_update p (env.model k) s).hops
      exact Nat.le_succ _
  | pluginTools p =>
      show s.hops ≤ (plugin_tools_node env s).hops
      rw [plugin_tools_node_hops]
  | finalizer => exact Nat.le_refl _
  | terminal => exact Nat.le_refl _

/-- Generic preservation of a predicate along a completed run. -/
theorem runExec_preserve (o : Orchestrator) (env : Env) {P : Exec → Prop}
    (hstep : ∀ e, P e → P (stepExec o env e)) :
    ∀ (fuel : Nat) (e e' : Exec), P e → runExec o env fuel e = some e' → P e' := by
  intro fuel
  induction fuel with
  | zero =>
      intro e e' hP hrun
      unfold runExec at hrun
      split at hrun
      · cases hrun; exact hP
      · cases hrun
  | succ n ih =>
      intro e e' hP hrun
      unfold runExec at hrun
      split at hrun
      · cases hrun; exact hP
      · exact ih _ _ (hstep e hP) hrun

/-- The loop-prevention invariant: the number of coordinator model calls
performed so far, plus the remaining room under the hop ceiling, never
exceeds `MAX_HOPS`. -/
theorem stepExec_coordInv (o : Orchestrator) (env : Env) (e : Exec)
    (h : e.coordCalls + (MAX_HOPS - e.state.hops) ≤ MAX_HOPS) :
    (stepExec o env e).coordCalls + (MAX_HOPS - (stepExec o env e).state.hops) ≤ MAX_HOPS := by
  rcases e with ⟨node, s, k, c⟩
  cases node with
  | coordinator =>
      by_cases hM : MAX_HOPS ≤ s.hops
      · have h1 : (stepExec o env ⟨Node.coordinator, s, k, c⟩).coordCalls = c := by
          show (if MAX_HOPS ≤ s.hops then c else c + 1) = c
          rw [if_pos hM]
        rw [h1, stepExec_coordinator_hops]
        simp only [Exec.coordCalls] at h
        omega
      · have h1 : (stepExec o env ⟨Node.coordinator, s, k, c⟩).coordCalls = c + 1 := by
          show (if MAX_HOPS ≤ s.hops then c else c + 1) = c + 1
          rw [if_neg hM]
        rw [h1, stepExec_coordinator_hops]
        simp only [Exec.coordCalls] at h
        omega
  | controlTools =>
      show c + (MAX_HOPS - (control_tools_node o.plugins s).hops) ≤ MAX_HOPS
      rw [control_tools_node_hops]
      exact h
  | pluginAgent p =>
      show c + (MAX_HOPS - (agent_node_update p (env.model k) s).hops) ≤ MAX_HOPS
      show c + (MAX_HOPS - (s.hops + 1)) ≤ MAX_HOPS
      simp only [Exec.coordCalls, Exec.state] at h
      omega
  | pluginTools p =>
      show c + (MAX_HOPS - (plugin_tools_node env s).hops) ≤ MAX_HOPS
      rw [plugin_tools_node_hops]
      exact h
  | finalizer => exact h
  | terminal => exact h

/-! ## Claim C1 — the hop guard of the coordinator -/

/-- A coordinator step that begins at or above the ceiling: the model call
is skipped, the notice is injected, and the next transition goes to `END`. -/
theorem stepExec_forced (o : Orchestrator) (env : Env) (s : AgentState) (k c : Nat)
    (h : MAX_HOPS ≤ s.hops) :
    stepExec o env ⟨Node.coordinator, s, k, c⟩ =
      ⟨Node.terminal,
        { s with messages := s.messages ++ [maxHopsNotice], hops := s.hops + 1 }, k, c⟩ := by
  have hroute :
      routeAfterCoordinator
        { s with messages := s.messages ++ [maxHopsNotice], hops := s.hops + 1 } =
        Node.terminal := by
    unfold routeAfterCoordinator maxHopsNotice
    simp
  simp only [stepExec, coordinator_node, _inc_hops, if_pos h]
  rw [hroute]

/-- An environment with trivial model responses, used for concrete runs. -/
def envZero : Env := ⟨fun _ => ⟨Role.assistant, "", []⟩, fun _ => ""⟩

/-- Counterexample to C1 as stated: starting a coordinator step at
`hops = MAX_HOPS` transitions to `END`, not to the finalizer node — the
forced path terminates the turn without ever reaching `finalizer`. -/
theorem claim_C1_counterexample :
    (stepExec ⟨[], {}⟩ envZero ⟨Node.coordinator, { hops := MAX_HOPS }, 0, 0⟩).node =
      Node.terminal ∧
    Node.terminal ≠ Node.finalizer := by
  constructor
  · rfl
  · decide

/-- C1 (amended): when a coordinator step begins with
`hops ≥ MAX_HOPS`, the engine skips the model call (the invocation index
is unchanged), injects the system notice, and the next transition goes
directly to `END` (terminating the turn, bypassing the finalizer node);
moreover in any completed turn the coordinator's model is invoked at most
`MAX_HOPS` times, even if the model keeps emitting tool calls. -/
theorem claim_C1_hop_guard :
    (∀ (o : Orchestrator) (env : Env) (s : AgentState) (k c : Nat), MAX_HOPS ≤ s.hops →
      stepExec o env ⟨Node.coordinator, s, k, c⟩ =
        ⟨Node.terminal,
          { s with messages := s.messages ++ [maxHopsNotice], hops := s.hops + 1 }, k, c⟩) ∧
    (∀ (o : Orchestrator) (env : Env) (fuel : Nat) (s : AgentState) (e' : Exec),
      runExec o env fuel ⟨Node.coordinator, s, 0, 0⟩ = some e' →
      e'.coordCalls ≤ MAX_HOPS) := by
  constructor
  · exact stepExec_forced
  · intro o env fuel s e' hrun
    have hinv :
        e'.coordCalls + (MAX_HOPS - e'.state.hops) ≤ MAX_HOPS := by
      refine runExec_preserve o env (fun e he => stepExec_coordInv o env e he) fuel _ _ ?_ hrun
      show 0 + (MAX_HOPS - s.hops) ≤ MAX_HOPS
      omega
    omega

/-- Witness for C1 at concrete inputs: at `hops = 10` the step is forced
and lands on `END`; a two-step concrete run obeys the coordinator-call
bound. -/
theorem claim_C1_hop_guard_witness :
    (stepExec ⟨[], {}⟩ envZero ⟨Node.coordinator, { hops := 10 }, 5, 7⟩ =
      ⟨Node.terminal, { messages := [maxHopsNotice], hops := 11 }, 5, 7⟩) ∧
    (∃ e', runExec ⟨[], {}⟩ envZero 2 ⟨Node.coordinator, {}, 0, 0⟩ = some e' ∧
      e'.coordCalls ≤ MAX_HOPS) := by
  constructor
  · exact claim_C1_hop_guard.1 ⟨[], {}⟩ envZero { hops := 10 } 5 7 (by decide)
  · exact ⟨_, rfl, claim_C1_hop_guard.2 ⟨[], {}⟩ envZero 2 {} _ rfl⟩

/-! ## Claim C2 — hop counter bounds over a full turn -/

/-- A model-response schedule making one plugin loop inside its
agent–tools cycle: coordinator calls at invocations 0, 3, 6, 9 route to
plugin `p`; agent invocations 1, 4, 7 emit a plugin tool call; all other
invocations answer without tool calls. -/
def hopsEnv : Env :=
  { model := fun k =>
      if k = 0 ∨ k = 3 ∨ k = 6 ∨ k = 9 then ⟨Role.assistant, "", ["goto_p"]⟩
      else if k = 1 ∨ k = 4 ∨ k = 7 then ⟨Role.assistant, "", ["t"]⟩
      else ⟨Role.assistant, "done", []⟩
    toolRun := fun _ => "out" }

/-- Counterexample to C2 as stated: a turn starting at `hops = 0` with one
loaded plugin completes with `hops = 12 > MAX_HOPS + 1`, because plugin
agent steps also increment `hops` and the agent–tools loop is not
hop-guarded. -/
theorem claim_C2_counterexample :
    (runTurn ⟨["p"], {}⟩ hopsEnv 25 {}).map AgentState.hops = some 12 ∧
    MAX_HOPS + 1 < 12 := by
  constructor
  · rfl
  · decide

/-- C2 (amended): every coordinator invocation increments `hops` by
exactly 1, and a completed turn returns `hops` strictly greater than the
input `hops` (at least one coordinator step always runs); but the returned
value is *not* bounded by `MAX_HOPS + 1` in general, since plugin agent
steps also increment `hops` outside the guard. -/
theorem claim_C2_hops_progress :
    (∀ (env : Env) (k : Nat) (s : AgentState),
      (coordinator_node env k s).1.hops = s.hops + 1) ∧
    (∀ (o : Orchestrator) (env : Env) (fuel : Nat) (s s' : AgentState),
      runTurn o env fuel s = some s' → s.hops + 1 ≤ s'.hops) := by
  constructor
  · exact coordinator_node_hops
  · intro o env fuel s s' hrun
    unfold runTurn at hrun
    cases hres : runExec o env fuel ⟨Node.coordinator, s, 0, 0⟩ with
    | none => rw [hres] at hrun; cases hrun
    | some e' =>
        rw [hres] at hrun
        cases hrun
        cases fuel with
        | zero =>
            unfold runExec at hres
            rw [if_neg (by decide : ¬(Node.coordinator = Node.terminal))] at hres
            cases hres
        | succ n =>
            unfold runExec at hres
            rw [if_neg (by decide : ¬(Node.coordinator = Node.terminal))] at hres
            have hstart :
                s.hops + 1 ≤ (stepExec o env ⟨Node.coordinator, s, 0, 0⟩).state.hops := by
              rw [stepExec_coordinator_hops]
            exact runExec_preserve o env
              (fun e he => Nat.le_trans he (stepExec_hops_mono o env e)) n _ _ hstart hres

/-- Witness for C2 at a concrete input: the trivial one-call turn
completes with `hops = 1 ≥ 0 + 1`. -/
theorem claim_C2_hops_progress_witness :
    (coordinator_node envZero 0 { hops := 4 }).1.hops = 5 ∧
    (∃ s', runTurn ⟨[], {}⟩ envZero 2 {} = some s' ∧ (0 : Nat) + 1 ≤ s'.hops) := by
  constructor
  · exact claim_C2_hops_progress.1 envZero 0 { hops := 4 }
  · exact ⟨_, rfl, claim_C2_hops_progress.2 ⟨[], {}⟩ envZero 2 {} _ rfl⟩

/-! ## Claim C4 — the hop ceiling is not read from the configuration -/

/-- A super-step is independent of the settings the orchestrator was
constructed with: `_coordinator_node` compares against the module
constant `MAX_HOPS`, never against `settings.max_hops`. -/
theorem stepExec_settings_invariant (plugins : List String) (st₁ st₂ : Settings)
    (env : Env) (e : Exec) :
    stepExec ⟨plugins, st₁⟩ env e = stepExec ⟨plugins, st₂⟩ env e := by
  rcases e with ⟨node, s, k, c⟩
  cases node <;> rfl

/-- Whole-turn independence of the configured `max_hops`. -/
theorem runExec_settings_invariant (plugins : List String) (st₁ st₂ : Settings)
    (env : Env) : ∀ (fuel : Nat) (e : Exec),
    runExec ⟨plugins, st₁⟩ env fuel e = runExec ⟨plugins, st₂⟩ env fuel e := by
  intro fuel
  induction fuel with
  | zero => intro e; rfl
  | succ n ih =>
      intro e
      unfold runExec
      rw [stepExec_settings_invariant plugins st₁ st₂ env e]
      by_cases h : e.node = Node.terminal
      · rw [if_pos h, if_pos h]
      · rw [if_neg h, if_neg h]
        exact ih _

/-- C4 is a code bug: two engines constructed with different configured
`max_hops` values behave identically on every turn, and in particular an
engine configured with `max_hops = 2` (a valid setting) still performs a
model call at `hops = 5` instead of forcing finalization — the
coordinator's guard reads the hardcoded `MAX_HOPS = 10`, never
`settings.max_hops`. -/
theorem claim_C4_ceiling_ignores_settings :
    (∀ (plugins : List String) (st₁ st₂ : Settings) (env : Env) (fuel : Nat) (s : AgentState),
      runTurn ⟨plugins, st₁⟩ env fuel s = runTurn ⟨plugins, st₂⟩ env fuel s) ∧
    Settings.valid { max_hops := 2 } ∧
    (stepExec ⟨[], { max_hops := 2 }⟩ envZero ⟨Node.coordinator, { hops := 5 }, 0, 0⟩).calls = 1 ∧
    (stepExec ⟨[], { max_hops := 2 }⟩ envZero ⟨Node.coordinator, { hops := 5 }, 0, 0⟩).state.hops
      = 6 := by
  refine ⟨?_, ⟨by decide, by decide⟩, rfl, rfl⟩
  intro plugins st₁ st₂ env fuel s
  unfold runTurn
  rw [runExec_settings_invariant plugins st₁ st₂ env fuel]

/-! ## Claim C5 — entry-point failure degradation -/

/-- Counterexample to C5 as stated: on an internal failure `"boom"`, the
suspending entry point returns a message whose user-visible content embeds
the raw error string (`"... Error: boom"`), so diagnostic detail is not
confined to out-of-band metadata. -/
theorem claim_C5_counterexample :
    (ainvokeEntry (Except.error "boom") {}).1.messages =
      [⟨Role.assistant, "I encountered an error processing your request. Error: boom", []⟩] ∧
    "I encountered an error processing your request. Error: boom" ≠ apology ∧
    (ainvokeEntry (Except.error "boom") {}).2 = some "boom" := by
  exact ⟨rfl, by decide, rfl⟩

/-- C5 (amended): both entry points catch any internal failure and return
(never raise) a state with a single apology message and
`hops = input hops + 1`.  The blocking variant's message is the fixed
generic apology, independent of the error (no diagnostic anywhere in its
output); the suspending variant appends the error string to the message
content *and* attaches it to the out-of-band `error` field. -/
theorem claim_C5_entry_degradation :
    (∀ (r inp : AgentState),
      invokeEntry (Except.ok r) inp = r ∧ ainvokeEntry (Except.ok r) inp = (r, none)) ∧
    (∀ (e : String) (inp : AgentState),
      invokeEntry (Except.error e) inp =
        { messages := [⟨Role.assistant, apology, []⟩], hops := inp.hops + 1 } ∧
      (invokeEntry (Except.error e) inp).messages.length = 1 ∧
      (ainvokeEntry (Except.error e) inp).1.messages.length = 1 ∧
      (ainvokeEntry (Except.error e) inp).1.hops = inp.hops + 1 ∧
      ainvokeEntry (Except.error e) inp =
        ({ messages := [⟨Role.assistant, apology ++ " Error: " ++ e, []⟩],
           hops := inp.hops + 1 }, some e)) ∧
    (∀ (e₁ e₂ : String) (inp : AgentState),
      invokeEntry (Except.error e₁) inp = invokeEntry (Except.error e₂) inp) := by
  exact ⟨fun r inp => ⟨rfl, rfl⟩,
         fun e inp => ⟨rfl, rfl, rfl, rfl, rfl⟩,
         fun e₁ e₂ inp => rfl⟩

/-! ## Claim C6 — `agents_used` and `routing_history` across agent steps -/

/-- A sequence of plugin agent steps within a turn: each step is the
plugin's name together with the model response it produced. -/
def runAgentSeq (steps : List (String × Message)) (s : AgentState) : AgentState :=
  steps.foldl (fun st nr => agent_node_update nr.1 nr.2 st) s

/-- Reference recursion: the distinct names of a list in first-arrival
order, skipping names already seen. -/
def firstOccWith (seen : List String) : List String → List String
  | [] => []
  | n :: t =>
      if seen.contains n then firstOccWith seen t
      else n :: firstOccWith (seen ++ [n]) t

/-- The distinct names of a list, in first-arrival order. -/
def firstOccurrences (names : List String) : List String := firstOccWith [] names

/-- `routing_history` receives exactly one appended entry per agent step,
in arrival order. -/
theorem runAgentSeq_routing_history (steps : List (String × Message)) (s : AgentState) :
    (runAgentSeq steps s).plugin_context.routing_history =
      s.plugin_context.routing_history ++ steps.map Prod.fst := by
  induction steps generalizing s with
  | nil => simp [runAgentSeq]
  | cons nr t ih =>
      show (runAgentSeq t (agent_node_update nr.1 nr.2 s)).plugin_context.routing_history = _
      rw [ih]
      show (s.plugin_context.routing_history ++ [nr.1]) ++ t.map Prod.fst = _
      rw [List.append_assoc]
      rfl

/-- The `agents_used` component of an agent-step sequence is the
insert-if-absent fold of the step names. -/
theorem runAgentSeq_agents_used (steps : List (String × Message)) (s : AgentState) :
    (runAgentSeq steps s).agents_used =
      (steps.map Prod.fst).foldl
        (fun acc n => if acc.contains n then acc else acc ++ [n]) s.agents_used := by
  induction steps generalizing s with
  | nil => rfl
  | cons nr t ih =>
      show (runAgentSeq t (agent_node_update nr.1 nr.2 s)).agents_used = _
      rw [ih]
      rfl

/-- Unfolding equation: a name already seen is skipped. -/
theorem firstOccWith_cons_seen {seen : List String} {n : String} (t : List String)
    (h : seen.contains n = true) :
    firstOccWith seen (n :: t) = firstOccWith seen t := by
  show (if seen.contains n then firstOccWith seen t else n :: firstOccWith (seen ++ [n]) t) =
    firstOccWith seen t
  rw [if_pos h]

/-- Unfolding equation: an unseen name is kept and marked seen. -/
theorem firstOccWith_cons_new {seen : List String} {n : String} (t : List String)
    (h : seen.contains n = false) :
    firstOccWith seen (n :: t) = n :: firstOccWith (seen ++ [n]) t := by
  show (if seen.contains n then firstOccWith seen t else n :: firstOccWith (seen ++ [n]) t) =
    n :: firstOccWith (seen ++ [n]) t
  have h' : ¬(seen.contains n = true) := by rw [h]; exact Bool.false_ne_true
  rw [if_neg h']

/-- The insert-if-absent fold appends exactly the unseen first arrivals. -/
theorem foldl_insert_eq_firstOccWith (names : List String) :
    ∀ acc : List String,
      names.foldl (fun acc n => if acc.contains n then acc else acc ++ [n]) acc =
        acc ++ firstOccWith acc names := by
  induction names with
  | nil => intro acc; simp [firstOccWith]
  | cons n t ih =>
      intro acc
      by_cases h : acc.contains n = true
      · show t.foldl _ (if acc.contains n then acc else acc ++ [n]) = _
        rw [if_pos h, ih acc, firstOccWith_cons_seen t h]
      · rw [Bool.not_eq_true] at h
        show t.foldl _ (if acc.contains n then acc else acc ++ [n]) = _
        rw [h]
        show t.foldl _ (acc ++ [n]) = _
        rw [ih (acc ++ [n]), firstOccWith_cons_new t h]
        simp

/-- Membership in the first-arrival list. -/
theorem mem_firstOccWith (n : String) (names : List String) :
    ∀ seen : List String,
      (n ∈ firstOccWith seen names ↔ n ∈ names ∧ n ∉ seen) := by
  induction names with
  | nil => intro seen; simp [firstOccWith]
  | cons m t ih =>
      intro seen
      unfold firstOccWith
      by_cases h : seen.contains m = true
      · rw [if_pos h, ih seen]
        have hm : m ∈ seen := by
          rw [← List.elem_iff]; exact h
        constructor
        · rintro ⟨h1, h2⟩; exact ⟨List.mem_cons_of_mem m h1, h2⟩
        · rintro ⟨h1, h2⟩
          rcases List.mem_cons.mp h1 with rfl | h1
          · exact absurd hm h2
          · exact ⟨h1, h2⟩
      · rw [Bool.not_eq_true] at h
        rw [if_neg (by rw [h]; exact Bool.false_ne_true), List.mem_cons, ih (seen ++ [m])]
        simp only [List.mem_append, List.mem_singleton]
        constructor
        · rintro (rfl | ⟨h1, h2⟩)
          · refine ⟨List.mem_cons_self n t, ?_⟩
            intro hn
            have : seen.contains n = true := by rw [List.elem_iff]; exact hn
            rw [h] at this; cases this
          · exact ⟨List.mem_cons_of_mem m h1, fun hn => h2 (Or.inl hn)⟩
        · rintro ⟨h1, h2⟩
          rcases List.mem_cons.mp h1 with rfl | h1
          · exact Or.inl rfl
          · by_cases hm : n = m
            · exact Or.inl hm
            · exact Or.inr ⟨h1, fun hx => hx.elim h2 hm⟩

/-- The first-arrival list has no duplicates. -/
theorem nodup_firstOccWith (names : List String) :
    ∀ seen : List String, (firstOccWith seen names).Nodup := by
  induction names with
  | nil => intro seen; simp [firstOccWith]
  | cons m t ih =>
      intro seen
      unfold firstOccWith
      by_cases h : seen.contains m = true
      · rw [if_pos h]; exact ih seen
      · rw [Bool.not_eq_true] at h
        rw [if_neg (by rw [h]; exact Bool.false_ne_true)]
        refine List.Nodup.cons ?_ (ih (seen ++ [m]))
        intro hmem
        have := (mem_firstOccWith m t (seen ++ [m])).mp hmem
        exact this.2 (List.mem_append_right seen (List.mem_singleton_self m))

/-- C6: over any sequence of plugin agent steps starting with empty
`agents_used`, the final `agents_used` is exactly the distinct step names
in first-arrival order (so each plugin name appears at most once), and
`plugin_context.routing_history` receives exactly one appended entry per
agent step including repeats, mirroring the arrival order. -/
theorem claim_C6_agents_used_history (steps : List (String × Message)) (s : AgentState)
    (h : s.agents_used = []) :
    (runAgentSeq steps s).agents_used = firstOccurrences (steps.map Prod.fst) ∧
    (runAgentSeq steps s).agents_used.Nodup ∧
    (∀ n, n ∈ (runAgentSeq steps s).agents_used ↔ n ∈ steps.map Prod.fst) ∧
    (runAgentSeq steps s).plugin_context.routing_history =
      s.plugin_context.routing_history ++ steps.map Prod.fst := by
  have heq : (runAgentSeq steps s).agents_used = firstOccurrences (steps.map Prod.fst) := by
    rw [runAgentSeq_agents_used, h, foldl_insert_eq_firstOccWith]
    rfl
  refine ⟨heq, ?_, ?_, runAgentSeq_routing_history steps s⟩
  · rw [heq]; exact nodup_firstOccWith _ []
  · intro n
    rw [heq]
    unfold firstOccurrences
    rw [mem_firstOccWith]
    simp

/-- Witness for C6 at a concrete input: steps by plugins `a`, `b`, `a`
yield `agents_used = [a, b]` and `routing_history = [a, b, a]`. -/
theorem claim_C6_agents_used_history_witness :
    (runAgentSeq [("a", ⟨Role.assistant, "", []⟩), ("b", ⟨Role.assistant, "", []⟩),
        ("a", ⟨Role.assistant, "", []⟩)] {}).agents_used = ["a", "b"] ∧
    (runAgentSeq [("a", ⟨Role.assistant, "", []⟩), ("b", ⟨Role.assistant, "", []⟩),
        ("a", ⟨Role.assistant, "", []⟩)] {}).plugin_context.routing_history = ["a", "b", "a"] := by
  have h := claim_C6_agents_used_history
    [("a", ⟨Role.assistant, "", []⟩), ("b", ⟨Role.assistant, "", []⟩),
     ("a", ⟨Role.assistant, "", []⟩)] {} rfl
  exact ⟨h.1.trans rfl, (h.2.2.2).trans rfl⟩

/-! ## Claim C7 — plugin loading isolation -/

/-- Replacing the value at key `k` does not change lookups of other keys. -/
theorem lookup_map_replace {α : Type} (l : List (String × α)) (k n : String) (v : α)
    (hn : n ≠ k) :
    (l.map (fun kv => if kv.1 = k then (k, v) else kv)).lookup n = l.lookup n := by
  induction l with
  | nil => rfl
  | cons kv t ih =>
      rcases kv with ⟨a, b⟩
      simp only [List.map_cons]
      by_cases ha : a = k
      · subst ha
        rw [if_pos rfl]
        have hne : (n == a) = false := by
          simp only [beq_eq_false_iff_ne, ne_eq]; exact hn
        simp [List.lookup, hne, ih]
      · rw [if_neg ha]
        by_cases hna : n = a
        · subst hna
          simp [List.lookup]
        · have hne : (n == a) = false := by
            simp only [beq_eq_false_iff_ne, ne_eq]; exact hna
          simp [List.lookup, hne, ih]

/-- Appending a binding for a fresh key does not change lookups of other
keys. -/
theorem lookup_append_single {α : Type} (l : List (String × α)) (k n : String) (v : α)
    (hn : n ≠ k) :
    (l ++ [(k, v)]).lookup n = l.lookup n := by
  induction l with
  | nil =>
      have hne : (n == k) = false := by
        simp only [beq_eq_false_iff_ne, ne_eq]; exact hn
      simp [List.lookup, hne]
  | cons kv t ih =>
      rcases kv with ⟨a, b⟩
      by_cases hna : n = a
      · subst hna; simp [List.lookup]
      · have hne : (n == a) = false := by
          simp only [beq_eq_false_iff_ne, ne_eq]; exact hna
        simp [List.lookup, hne, ih]

/-- Replacing the value at a bound key makes lookups of that key find the
new value. -/
theorem lookup_map_replace_self {α : Type} (l : List (String × α)) (k : String) (v : α)
    (h : (l.lookup k).isSome = true) :
    (l.map (fun kv => if kv.1 = k then (k, v) else kv)).lookup k = some v := by
  induction l with
  | nil => simp [List.lookup] at h
  | cons kv t ih =>
      rcases kv with ⟨a, b⟩
      simp only [List.map_cons]
      by_cases hk : a = k
      · subst hk
        rw [if_pos rfl]
        simp [List.lookup]
      · rw [if_neg hk]
        have hne : (k == a) = false := by
          simp only [beq_eq_false_iff_ne, ne_eq]
          exact fun he => hk he.symm
        simp only [List.lookup, hne] at h
        simp [List.lookup, hne, ih h]

/-- Appending a binding for an unbound key makes lookups of that key find
the new value. -/
theorem lookup_append_self {α : Type} (l : List (String × α)) (k : String) (v : α)
    (h : (l.lookup k).isSome = false) :
    (l ++ [(k, v)]).lookup k = some v := by
  induction l with
  | nil => simp [List.lookup]
  | cons kv t ih =>
      rcases kv with ⟨a, b⟩
      by_cases hk : k = a
      · simp [List.lookup, hk] at h
      · have hne : (k == a) = false := by
          simp only [beq_eq_false_iff_ne, ne_eq]; exact hk
        simp only [List.lookup, hne] at h
        simp [List.lookup, hne, ih h]

/-- Looking up the freshly assigned key finds the new value. -/
theorem lookup_dictInsert_self {α : Type} (l : List (String × α)) (k : String) (v : α) :
    (dictInsert l k v).lookup k = some v := by
  unfold dictInsert
  by_cases h : (l.lookup k).isSome
  · rw [if_pos h]; exact lookup_map_replace_self l k v h
  · rw [if_neg h]
    exact lookup_append_self l k v (Bool.not_eq_true _ ▸ h)

/-- Dict assignment preserves lookups of other keys. -/
theorem lookup_dictInsert_ne {α : Type} (l : List (String × α)) (k n : String) (v : α)
    (hn : n ≠ k) : (dictInsert l k v).lookup n = l.lookup n := by
  unfold dictInsert
  by_cases h : (l.lookup k).isSome
  · rw [if_pos h]; exact lookup_map_replace l k n v hn
  · rw [if_neg h]; exact lookup_append_single l k n v hn

/-- Dict assignment never removes a registered key. -/
theorem lookup_dictInsert_isSome {α : Type} (l : List (String × α)) (k n : String) (v : α)
    (h : (l.lookup n).isSome = true) :
    ((dictInsert l k v).lookup n).isSome = true := by
  by_cases hn : n = k
  · subst hn; rw [lookup_dictInsert_self]; rfl
  · rw [lookup_dictInsert_ne l k n v hn]; exact h

/-- Outcome analysis of `load_plugin_bundle`: either the load returns
`False` with the bundle dict untouched, or it succeeds and registers the
bundle under the metadata name, marking it healthy, without touching the
failed set. -/
theorem load_plugin_bundle_spec (ms : ManagerState) (src : PluginSource) :
    ((load_plugin_bundle ms src).1 = false ∧
      (load_plugin_bundle ms src).2.bundles = ms.bundles) ∨
    (∃ md bundle,
      src.metadataStep = Except.ok md ∧
      (load_plugin_bundle ms src).1 = true ∧
      (load_plugin_bundle ms src).2.bundles = dictInsert ms.bundles md.name bundle ∧
      md.name ∈ (load_plugin_bundle ms src).2.healthy ∧
      (load_plugin_bundle ms src).2.failed = ms.failed) := by
  unfold load_plugin_bundle load_bundle_body load_plugin_module
  rcases hval : src.validationStep with e | verrs
  · left; simp [hval]
  · by_cases hv : verrs = []
    · rcases hme : src.moduleExec with e | u
      · left; simp [hval, hv, hme]
      · by_cases hrf : src.hasRequiredFns = true
        · rcases hmd : src.metadataStep with e | md
          · left; simp [hval, hv, hme, hrf, hmd]
          · rcases hag : src.agentStep with e | u2
            · left; simp [hval, hv, hme, hrf, hmd, hag]
            · rcases hcm : create_base_model ms.factory (create_model_config md)
                with e | p
              · left; simp [hval, hv, hme, hrf, hmd, hag, hcm]
              · rcases p with ⟨bm, fac⟩
                rcases hts : src.toolsStep with e | tools
                · left; simp [hval, hv, hme, hrf, hmd, hag, hcm, hts]
                · rcases hbs : src.bindStep with e | u3
                  · left; simp [hval, hv, hme, hrf, hmd, hag, hcm, hts, hbs]
                  · rcases his : src.initStep with e | u4
                    · left; simp [hval, hv, hme, hrf, hmd, hag, hcm, hts, hbs, his]
                    · right
                      refine ⟨md, ⟨some md, some (), some bm, tools⟩, rfl, ?_, ?_, ?_, ?_⟩ <;>
                        simp [hval, hv, hme, hrf, hmd, hag, hcm, hts, hbs, his]
        · left
          rw [Bool.not_eq_true] at hrf
          simp [hval, hv, hme, hrf]
    · left; simp [hval, hv]

/-- An exception escaping the `try` block puts the plugin's directory name
into `failed_plugins`. -/
theorem load_plugin_bundle_error_marks (ms : ManagerState) (src : PluginSource)
    (e : String) (msAt : ManagerState)
    (h : load_bundle_body ms src = Except.error (e, msAt)) :
    src.dirName ∈ (load_plugin_bundle ms src).2.failed := by
  unfold load_plugin_bundle
  rw [h]
  exact Finset.mem_insert_self _ _

/-- Loading one plugin never removes an existing registration. -/
theorem load_bundle_keeps_registered (ms : ManagerState) (src : PluginSource) (n : String)
    (h : (ms.bundles.lookup n).isSome = true) :
    ((load_plugin_bundle ms src).2.bundles.lookup n).isSome = true := by
  rcases load_plugin_bundle_spec ms src with ⟨_, hb⟩ | ⟨md, bundle, _, _, hb, _, _⟩
  · rw [hb]; exact h
  · rw [hb]; exact lookup_dictInsert_isSome _ _ _ _ h

/-- Loading all discovered plugins never removes an existing registration. -/
theorem load_all_keeps_registered (srcs : List PluginSource) :
    ∀ (ms : ManagerState) (n : String),
      (ms.bundles.lookup n).isSome = true →
      ((load_all_plugin_bundles ms srcs).bundles.lookup n).isSome = true := by
  induction srcs with
  | nil => intro ms n h; exact h
  | cons s t ih =>
      intro ms n h
      show ((load_all_plugin_bundles (load_plugin_bundle ms s).2 t).bundles.lookup n).isSome = true
      exact ih _ n (load_bundle_keeps_registered ms s n h)

/-- Counterexample to C7 as stated: a plugin whose module raises during
loading (`exec_module` fails). -/
def badModuleSrc : PluginSource :=
  { dirName := "weather"
    validationStep := Except.ok []
    moduleExec := Except.error "boom"
    hasRequiredFns := true
    metadataStep := Except.ok { name := "weather", version := "1.0", description := "d" }
    agentStep := Except.ok ()
    toolsStep := Except.ok ["t"]
    bindStep := Except.ok ()
    initStep := Except.ok () }

/-- Counterexample to C7 as stated: an exception raised while loading the
plugin's module is swallowed by `_load_plugin_module`, the load returns
`False`, and the plugin is *not* marked failed by its directory name —
the failed set stays empty. -/
theorem claim_C7_counterexample :
    (load_plugin_bundle {} badModuleSrc).1 = false ∧
    (load_plugin_bundle {} badModuleSrc).2.failed = ∅ ∧
    "weather" ∉ (load_plugin_bundle {} badModuleSrc).2.failed := by
  refine ⟨rfl, rfl, ?_⟩
  intro h
  have h2 : (load_plugin_bundle {} badModuleSrc).2.failed = ∅ := rfl
  rw [h2] at h
  exact absurd h (Finset.not_mem_empty _)

/-- A source whose metadata accessor raises: the exception escapes the
`try` block. -/
def raisingSrc : PluginSource :=
  { dirName := "broken"
    validationStep := Except.ok []
    moduleExec := Except.ok ()
    hasRequiredFns := true
    metadataStep := Except.error "bad metadata"
    agentStep := Except.ok ()
    toolsStep := Except.ok ["t"]
    bindStep := Except.ok ()
    initStep := Except.ok () }

/-- A source that loads fully, against a manager whose factory can resolve
an OpenAI key. -/
def goodSrc : PluginSource :=
  { dirName := "search"
    validationStep := Except.ok []
    moduleExec := Except.ok ()
    hasRequiredFns := true
    metadataStep := Except.ok { name := "search", version := "1.0", description := "d" }
    agentStep := Except.ok ()
    toolsStep := Except.ok ["web_search"]
    bindStep := Except.ok ()
    initStep := Except.ok () }

/-- Manager whose factory settings carry an OpenAI credential. -/
def msGood : ManagerState :=
  { factory := { settings := { openai_api_key := some "sk-test" } } }

/-- C7 (amended): an exception *escaping* the load of one plugin (raised by
the validator itself, metadata or agent construction, model creation, tool
collection, binding or the initialization hook) marks that plugin failed
by its directory name; a successful load registers the bundle under its
metadata name and marks it healthy; and loading — one plugin or all of
them — never unregisters previously registered plugins, so failures do not
abort the rest.  (Exceptions raised while executing the plugin module are
caught inside `_load_plugin_module` and do *not* mark the plugin failed.) -/
theorem claim_C7_load_isolation :
    (∀ (ms : ManagerState) (src : PluginSource) (e : String) (msAt : ManagerState),
      load_bundle_body ms src = Except.error (e, msAt) →
      src.dirName ∈ (load_plugin_bundle ms src).2.failed) ∧
    (∀ (ms : ManagerState) (src : PluginSource),
      (load_plugin_bundle ms src).1 = true →
      ∃ md, src.metadataStep = Except.ok md ∧
        ((load_plugin_bundle ms src).2.bundles.lookup md.name).isSome = true ∧
        md.name ∈ (load_plugin_bundle ms src).2.healthy ∧
        (load_plugin_bundle ms src).2.failed = ms.failed) ∧
    (∀ (ms : ManagerState) (src : PluginSource) (n : String),
      (ms.bundles.lookup n).isSome = true →
      ((load_plugin_bundle ms src).2.bundles.lookup n).isSome = true) ∧
    (∀ (ms : ManagerState) (srcs : List PluginSource) (n : String),
      (ms.bundles.lookup n).isSome = true →
      ((load_all_plugin_bundles ms srcs).bundles.lookup n).isSome = true) := by
  refine ⟨load_plugin_bundle_error_marks, ?_, load_bundle_keeps_registered,
    fun ms srcs n h => load_all_keeps_registered srcs ms n h⟩
  intro ms src hok
  rcases load_plugin_bundle_spec ms src with ⟨hfalse, _⟩ | ⟨md, bundle, hmd, _, hb, hh, hf⟩
  · rw [hok] at hfalse; cases hfalse
  · refine ⟨md, hmd, ?_, hh, hf⟩
    rw [hb, lookup_dictInsert_self]
    rfl

/-- Witness for C7 at concrete inputs: a raising metadata accessor marks
`broken` failed; a clean source registers `search`; registration of `x`
survives a later failing load. -/
theorem claim_C7_load_isolation_witness :
    "broken" ∈ (load_plugin_bundle {} raisingSrc).2.failed ∧
    (∃ md, goodSrc.metadataStep = Except.ok md ∧
      ((load_plugin_bundle msGood goodSrc).2.bundles.lookup md.name).isSome = true ∧
      md.name ∈ (load_plugin_bundle msGood goodSrc).2.healthy ∧
      (load_plugin_bundle msGood goodSrc).2.failed = msGood.failed) := by
  constructor
  · exact claim_C7_load_isolation.1 {} raisingSrc "bad metadata" {} rfl
  · exact claim_C7_load_isolation.2.1 msGood goodSrc rfl

/-! ## Claim C8 — health-check idempotence -/

/-- The health classification the dict iteration would assign to `n` from
the loaded bundles (the last binding of `n` wins), or `none` when `n` has
no bundle. -/
def lastStatus (n : String) : List (String × PluginBundle) → Option Bool
  | [] => none
  | nb :: t =>
      match lastStatus n t with
      | some b => some b
      | none => if nb.1 = n then some (bundle_health nb.2) else none

/-- One loop iteration appends exactly one result entry. -/
theorem health_check_step_results
    (acc : List (String × Bool) × Finset String × Finset String)
    (nb : String × PluginBundle) :
    (health_check_step acc nb).1 = acc.1 ++ [(nb.1, bundle_health nb.2)] := by
  unfold health_check_step
  by_cases hh : bundle_health nb.2 = true
  · simp [hh]
  · rw [Bool.not_eq_true] at hh
    simp [hh]

/-- The results dict of the health-check loop: one entry per loaded
bundle, in iteration order, carrying the health predicate's value. -/
theorem fold_health_results (bs : List (String × PluginBundle)) :
    ∀ acc : List (String × Bool) × Finset String × Finset String,
      (bs.foldl health_check_step acc).1 =
        acc.1 ++ bs.map (fun nb => (nb.1, bundle_health nb.2)) := by
  induction bs with
  | nil => intro acc; simp
  | cons nb t ih =>
      intro acc
      show (t.foldl health_check_step (health_check_step acc nb)).1 = _
      rw [ih (health_check_step acc nb), health_check_step_results]
      simp

/-- Membership in the healthy/failed sets after the loop is decided by the
last bundle bound to the name, falling back to the incoming sets. -/
theorem fold_health_mem (bs : List (String × PluginBundle)) :
    ∀ (acc : List (String × Bool) × Finset String × Finset String) (n : String),
      (n ∈ (bs.foldl health_check_step acc).2.1 ↔
        (match lastStatus n bs with
         | some b => b = true
         | none => n ∈ acc.2.1)) ∧
      (n ∈ (bs.foldl health_check_step acc).2.2 ↔
        (match lastStatus n bs with
         | some b => b = false
         | none => n ∈ acc.2.2)) := by
  induction bs with
  | nil => intro acc n; exact ⟨Iff.rfl, Iff.rfl⟩
  | cons nb t ih =>
      intro acc n
      have iht := ih (health_check_step acc nb) n
      rcases hls : lastStatus n t with _ | b
      · simp only [hls] at iht
        simp only [List.foldl_cons, lastStatus, hls]
        refine ⟨iht.1.trans ?_, iht.2.trans ?_⟩
        · by_cases hn : nb.1 = n
          · subst hn
            by_cases hh : bundle_health nb.2 = true
            · simp [health_check_step, hh]
            · rw [Bool.not_eq_true] at hh
              simp [health_check_step, hh]
          · have hn' : n ≠ nb.1 := fun h => hn h.symm
            by_cases hh : bundle_health nb.2 = true
            · simp [health_check_step, hh, hn, Finset.mem_insert, hn']
            · rw [Bool.not_eq_true] at hh
              simp [health_check_step, hh, hn, Finset.mem_erase, hn']
        · by_cases hn : nb.1 = n
          · subst hn
            by_cases hh : bundle_health nb.2 = true
            · simp [health_check_step, hh]
            · rw [Bool.not_eq_true] at hh
              simp [health_check_step, hh]
          · have hn' : n ≠ nb.1 := fun h => hn h.symm
            by_cases hh : bundle_health nb.2 = true
            · simp [health_check_step, hh, hn, Finset.mem_erase, hn']
            · rw [Bool.not_eq_true] at hh
              simp [health_check_step, hh, hn, Finset.mem_insert, hn']
      · simp only [hls] at iht
        simp only [List.foldl_cons, lastStatus, hls]
        exact iht

/-- C8: health checking is idempotent and non-destructive — the results
dict is one entry per loaded bundle carrying the health predicate
(non-null agent, non-null bound model, at least one tool, non-null
metadata, via `bundle_health`), a second call with unchanged bundles
returns identical results and leaves identical healthy/failed sets, and
no call ever modifies the bundle dict. -/
theorem claim_C8_health_idempotent (ms : ManagerState) :
    (perform_health_checks ms).1 =
      ms.bundles.map (fun nb => (nb.1, bundle_health nb.2)) ∧
    (perform_health_checks ms).2.bundles = ms.bundles ∧
    (perform_health_checks (perform_health_checks ms).2).1 = (perform_health_checks ms).1 ∧
    (perform_health_checks (perform_health_checks ms).2).2.healthy =
      (perform_health_checks ms).2.healthy ∧
    (perform_health_checks (perform_health_checks ms).2).2.failed =
      (perform_health_checks ms).2.failed ∧
    (perform_health_checks (perform_health_checks ms).2).2.bundles = ms.bundles := by
  have hres : ∀ m : ManagerState,
      (perform_health_checks m).1 = m.bundles.map (fun nb => (nb.1, bundle_health nb.2)) := by
    intro m
    show (m.bundles.foldl health_check_step ([], m.healthy, m.failed)).1 = _
    rw [fold_health_results]
    simp
  refine ⟨hres ms, rfl, ?_, ?_, ?_, rfl⟩
  · rw [hres, hres]
    rfl
  · apply Finset.ext
    intro n
    have m1 := (fold_health_mem ms.bundles ([], ms.healthy, ms.failed) n).1
    have m2 := (fold_health_mem ms.bundles
      ([], (ms.bundles.foldl health_check_step ([], ms.healthy, ms.failed)).2.1,
           (ms.bundles.foldl health_check_step ([], ms.healthy, ms.failed)).2.2) n).1
    rcases hls : lastStatus n ms.bundles with _ | b
    · simp only [hls] at m1 m2
      exact m2
    · simp only [hls] at m1 m2
      exact m2.trans m1.symm
  · apply Finset.ext
    intro n
    have m1 := (fold_health_mem ms.bundles ([], ms.healthy, ms.failed) n).2
    have m2 := (fold_health_mem ms.bundles
      ([], (ms.bundles.foldl health_check_step ([], ms.healthy, ms.failed)).2.1,
           (ms.bundles.foldl health_check_step ([], ms.healthy, ms.failed)).2.2) n).2
    rcases hls : lastStatus n ms.bundles with _ | b
    · simp only [hls] at m1 m2
      exact m2
    · simp only [hls] at m1 m2
      exact m2.trans m1.symm

/-! ## Claims C9 and C10 — model factory caching -/

/-- A successful `create_base_model` leaves the handle cached under the
configuration's composite key. -/
theorem create_base_model_caches (fs : FactoryState) (c : ModelConfig)
    (m : ModelHandle) (fs' : FactoryState)
    (h : create_base_model fs c = Except.ok (m, fs')) :
    fs'.cache.lookup (get_cache_key c) = some m := by
  unfold create_base_model at h
  cases hc : fs.cache.lookup (get_cache_key c) with
  | some m0 =>
      rw [hc] at h
      simp only [Except.ok.injEq, Prod.mk.injEq] at h
      obtain ⟨h1, h2⟩ := h
      subst h1; subst h2
      exact hc
  | none =>
      rw [hc] at h
      by_cases hpr : registeredProviders.contains c.provider = true
      · rw [if_pos hpr] at h
        cases he : ensure_api_key fs.settings c with
        | error e => rw [he] at h; cases h
        | ok c' =>
            rw [he] at h
            simp only [Except.ok.injEq, Prod.mk.injEq] at h
            obtain ⟨h1, h2⟩ := h
            subst h1; subst h2
            exact lookup_append_self _ _ _ (by rw [hc]; rfl)
      · rw [if_neg (by rw [Bool.not_eq_true] at hpr; rw [hpr]; exact Bool.false_ne_true)] at h
        cases h

/-- Calling the factory again with a configuration agreeing on provider,
model name and temperature returns the cached handle and leaves the
factory untouched. -/
theorem create_base_model_reuse (fs : FactoryState) (c₁ c₂ : ModelConfig)
    (m : ModelHandle) (fs' : FactoryState)
    (h : create_base_model fs c₁ = Except.ok (m, fs'))
    (hp : c₂.provider = c₁.provider) (hm : c₂.model_name = c₁.model_name)
    (ht : c₂.temperature = c₁.temperature) :
    create_base_model fs' c₂ = Except.ok (m, fs') := by
  have hkey : get_cache_key c₂ = get_cache_key c₁ := by
    unfold get_cache_key
    rw [hp, hm, ht]
  unfold create_base_model
  rw [hkey, create_base_model_caches fs c₁ m fs' h]

/-- On a cache miss, an unregistered provider raises the unknown-provider
configuration error. -/
theorem create_base_model_unknown_provider (fs : FactoryState) (c : ModelConfig)
    (hc : fs.cache.lookup (get_cache_key c) = none)
    (hpr : registeredProviders.contains c.provider = false) :
    create_base_model fs c = Except.error ("Unknown provider: " ++ c.provider) := by
  unfold create_base_model
  rw [hc, if_neg (by rw [hpr]; exact Bool.false_ne_true)]

/-- On a cache miss with a registered provider, an unresolvable credential
raises the missing-key configuration error. -/
theorem create_base_model_no_key (fs : FactoryState) (c : ModelConfig)
    (hc : fs.cache.lookup (get_cache_key c) = none)
    (hpr : registeredProviders.contains c.provider = true)
    (hak : c.api_key = none)
    (hsk : fs.settings.get_api_key_for_provider c.provider = none) :
    create_base_model fs c = Except.error ("No API key found for provider: " ++ c.provider) := by
  unfold create_base_model
  rw [hc, if_pos hpr]
  unfold ensure_api_key
  rw [hak, hsk]

/-- Configuration with an inline API key (first caller). -/
def cfgWithKey : ModelConfig :=
  { provider := "openai", model_name := "gpt-4o", temperature := 0, api_key := some "sk-1" }

/-- The same provider/model/temperature with no inline key (second
caller). -/
def cfgNoKey : ModelConfig :=
  { provider := "openai", model_name := "gpt-4o", temperature := 0, api_key := none }

/-- Counterexample to C9 as stated: after a first call that supplied its
own API key, a second call agreeing on provider/model/temperature but with
*no resolvable key* (none inline, none in settings) does not fail — the
cache hit returns the stored handle before any credential check runs. -/
theorem claim_C9_counterexample :
    cfgNoKey.api_key = none ∧
    (FactoryState.settings {}).get_api_key_for_provider cfgNoKey.provider = none ∧
    (∃ m fs', create_base_model {} cfgWithKey = Except.ok (m, fs') ∧
      fs'.settings.get_api_key_for_provider cfgNoKey.provider = none ∧
      create_base_model fs' cfgNoKey = Except.ok (m, fs')) := by
  exact ⟨rfl, rfl, ⟨_, _, rfl, rfl, rfl⟩⟩

/-- C9 (amended): identical provider/model/temperature configurations
reuse the very same cached handle with no reconstruction; a call whose
composite key misses the cache fails with a configuration error when the
provider is unknown or no API key is resolvable — but a cache hit skips
both checks. -/
theorem claim_C9_model_cache :
    (∀ (fs : FactoryState) (c₁ c₂ : ModelConfig) (m : ModelHandle) (fs' : FactoryState),
      create_base_model fs c₁ = Except.ok (m, fs') →
      c₂.provider = c₁.provider → c₂.model_name = c₁.model_name →
      c₂.temperature = c₁.temperature →
      create_base_model fs' c₂ = Except.ok (m, fs')) ∧
    (∀ (fs : FactoryState) (c : ModelConfig),
      fs.cache.lookup (get_cache_key c) = none →
      registeredProviders.contains c.provider = false →
      create_base_model fs c = Except.error ("Unknown provider: " ++ c.provider)) ∧
    (∀ (fs : FactoryState) (c : ModelConfig),
      fs.cache.lookup (get_cache_key c) = none →
      registeredProviders.contains c.provider = true →
      c.api_key = none →
      fs.settings.get_api_key_for_provider c.provider = none →
      create_base_model fs c =
        Except.error ("No API key found for provider: " ++ c.provider)) :=
  ⟨create_base_model_reuse, create_base_model_unknown_provider, create_base_model_no_key⟩

/-- Factory whose settings carry an OpenAI credential. -/
def fsKey : FactoryState := { settings := { openai_api_key := some "sk-2" } }

/-- Witness for C9 at concrete inputs: a repeated identical configuration
returns the identical handle; an unknown provider and a missing key fail
on a fresh factory. -/
theorem claim_C9_model_cache_witness :
    (∃ m fs', create_base_model fsKey cfgNoKey = Except.ok (m, fs') ∧
      create_base_model fs' cfgNoKey = Except.ok (m, fs')) ∧
    create_base_model {} { provider := "petrol", model_name := "m" } =
      Except.error ("Unknown provider: " ++ "petrol") ∧
    create_base_model {} { provider := "openai", model_name := "m" } =
      Except.error ("No API key found for provider: " ++ "openai") := by
  refine ⟨⟨_, _, rfl, ?_⟩, ?_, ?_⟩
  · exact claim_C9_model_cache.1 fsKey cfgNoKey cfgNoKey _ _ rfl rfl rfl rfl
  · exact claim_C9_model_cache.2.1 {} { provider := "petrol", model_name := "m" } rfl rfl
  · exact claim_C9_model_cache.2.2 {} { provider := "openai", model_name := "m" } rfl rfl rfl rfl

/-- `_ensure_api_key` only fills in the credential. -/
theorem ensure_api_key_fields (st : Settings) (c c' : ModelConfig)
    (h : ensure_api_key st c = Except.ok c') :
    c'.model_name = c.model_name ∧ c'.temperature = c.temperature ∧
    c'.max_tokens = c.max_tokens := by
  unfold ensure_api_key at h
  cases hak : c.api_key with
  | some k =>
      rw [hak] at h
      simp only [Except.ok.injEq] at h
      subst h
      exact ⟨rfl, rfl, rfl⟩
  | none =>
      rw [hak] at h
      cases hsk : st.get_api_key_for_provider c.provider with
      | some k =>
          rw [hsk] at h
          simp only [Except.ok.injEq] at h
          subst h
          exact ⟨rfl, rfl, rfl⟩
      | none => rw [hsk] at h; cases h

/-- C10: the cache key omits `max_tokens`, so two configurations agreeing
on provider, model name and temperature but differing in `max_tokens`
share one cache entry: the second call returns the very same handle, which
was constructed with the *first* configuration's `max_tokens` — the second
caller's `max_tokens` is silently ignored. -/
theorem claim_C10_key_omits_max_tokens :
    (∀ (c : ModelConfig) (n : Nat),
      get_cache_key { c with max_tokens := n } = get_cache_key c) ∧
    (∀ (fs : FactoryState) (c₁ c₂ : ModelConfig) (m : ModelHandle) (fs' : FactoryState),
      fs.cache.lookup (get_cache_key c₁) = none →
      create_base_model fs c₁ = Except.ok (m, fs') →
      c₂.provider = c₁.provider → c₂.model_name = c₁.model_name →
      c₂.temperature = c₁.temperature →
      m.max_tokens = c₁.max_tokens ∧ create_base_model fs' c₂ = Except.ok (m, fs')) := by
  constructor
  · intro c n; rfl
  · intro fs c₁ c₂ m fs' hc h hp hm ht
    refine ⟨?_, create_base_model_reuse fs c₁ c₂ m fs' h hp hm ht⟩
    unfold create_base_model at h
    rw [hc] at h
    by_cases hpr : registeredProviders.contains c₁.provider = true
    · rw [if_pos hpr] at h
      cases he : ensure_api_key fs.settings c₁ with
      | error e => rw [he] at h; cases h
      | ok c' =>
          rw [he] at h
          simp only [Except.ok.injEq, Prod.mk.injEq] at h
          obtain ⟨h1, _⟩ := h
          subst h1
          exact (ensure_api_key_fields fs.settings c₁ c' he).2.2
    · rw [if_neg (by rw [Bool.not_eq_true] at hpr; rw [hpr]; exact Bool.false_ne_true)] at h
      cases h

/-- Witness for C10 at concrete inputs: `max_tokens` 111 then 222 — the
second call returns the first handle, built with 111. -/
theorem claim_C10_key_omits_max_tokens_witness :
    get_cache_key { cfgNoKey with max_tokens := 999 } = get_cache_key cfgNoKey ∧
    (∃ m fs',
      create_base_model fsKey { cfgNoKey with max_tokens := 111 } = Except.ok (m, fs') ∧
      m.max_tokens = 111 ∧
      create_base_model fs' { cfgNoKey with max_tokens := 222 } = Except.ok (m, fs')) := by
  refine ⟨claim_C10_key_omits_max_tokens.1 cfgNoKey 999, ⟨_, _, rfl, ?_, ?_⟩⟩
  · exact (claim_C10_key_omits_max_tokens.2 fsKey { cfgNoKey with max_tokens := 111 }
      { cfgNoKey with max_tokens := 222 } _ _ rfl rfl rfl rfl rfl).1
  · exact (claim_C10_key_omits_max_tokens.2 fsKey { cfgNoKey with max_tokens := 111 }
      { cfgNoKey with max_tokens := 222 } _ _ rfl rfl rfl rfl rfl).2

end Lucas
